import Mathlib

/-!
Verification of the `bazel-init` prototype (experimental/init/): the
autodetection helpers (`autodetect.py`), the build-graph generation helpers
(`buildgen.py`) and package merging (`packgen.py`), shallowly embedded in Lean.
Python strings are modelled as `String`, the external world (tool lookup,
subprocess calls, the filesystem) as an explicit `Env` record of oracles, and
fallible code returns `Except`/`Option`.  A Python dictionary's contents are
carried as an association list recording the keyed assignments in order —
keyed lookups and overwrites are order-independent — and where the sources
observably iterate a dictionary (the serializer's `iteritems` loops), the
model replays CPython 2's hash-table iteration order (`py2StrHash`,
`py2DictEntries`), which is not insertion order.
-/

namespace BazelInit

/-! Python string primitives used by the sources. -/

/-- Characters the Python `str.strip()` and the regex class `\s` treat as
whitespace. -/
def isPySpace (c : Char) : Bool :=
  c = ' ' || c = '\t' || c = '\n' || c = '\r' || c = '\x0b' || c = '\x0c'

/-- Python `str.strip()`. -/
def pyStrip (s : String) : String :=
  (((s.toList.dropWhile isPySpace).reverse.dropWhile isPySpace).reverse).asString

/-- Length of a string in characters. -/
def pyLen (s : String) : Nat :=
  s.toList.length

/-- Drop the first `n` characters of a string (a Python slice `s[n:]`). -/
def pyDrop (s : String) (n : Nat) : String :=
  (s.toList.drop n).asString

/-- Python `str.startswith`. -/
def pyStartsWith (s pre : String) : Bool :=
  pre.toList.isPrefixOf s.toList

/-- Split on every occurrence of a separator character (helper for
`pySplitChar`). -/
def splitOnChar (sep : Char) : List Char → List (List Char)
  | [] => [[]]
  | c :: rest =>
    match splitOnChar sep rest with
    | [] => [[c]]
    | g :: gs => if c = sep then [] :: g :: gs else (c :: g) :: gs

/-- Python `str.split(sep)` for a one-character separator. -/
def pySplitChar (s : String) (sep : Char) : List String :=
  (splitOnChar sep s.toList).map List.asString

/-- Python `str.replace(old, new)` for a one-character `old`. -/
def replaceChar (s : String) (c : Char) (r : String) : String :=
  (s.toList.foldr (fun ch acc => if ch = c then r.toList ++ acc else ch :: acc)
    []).asString

/-- Join strings with a separator (Python `sep.flatten`). -/
def joinWith (sep : String) : List String → String
  | [] => ""
  | [x] => x
  | x :: y :: xs => x ++ sep ++ joinWith sep (y :: xs)

/-- Helper for `pySplitWs`. -/
def pySplitWsAux : List Char → List Char → List String
  | [], acc => if acc.isEmpty then [] else [acc.reverse.asString]
  | c :: cs, acc =>
    if isPySpace c then
      if acc.isEmpty then pySplitWsAux cs []
      else acc.reverse.asString :: pySplitWsAux cs []
    else pySplitWsAux cs (c :: acc)

/-- Python `str.split()` with no argument: maximal runs of non-whitespace. -/
def pySplitWs (s : String) : List String :=
  pySplitWsAux s.toList []

/-- Python `str.splitlines()` restricted to `\n` separators: like splitting on
`\n` but a trailing final newline produces no empty last entry. -/
def pySplitLines (s : String) : List String :=
  let parts := pySplitChar s '\n'
  if parts.getLast? = some "" then parts.dropLast else parts

/-! The autodetection helpers of `experimental/init/autodetect.py`. -/

/-- Lexicographic comparison of character lists by code point, the order
Python 2 uses on (ASCII) strings: a strict prefix is smaller. -/
def listLtChar : List Char → List Char → Bool
  | [], [] => false
  | [], _ :: _ => true
  | _ :: _, [] => false
  | a :: as, b :: bs =>
    if a.toNat < b.toNat then true
    else if b.toNat < a.toNat then false
    else listLtChar as bs

/-- Python 2 `<` on strings. -/
def pyStrLt (a b : String) : Bool :=
  listLtChar a.toList b.toList

/-- Loop of `AutodetectHelper.version_compare`: pairwise raw-string comparison
(`>` first, then `<`), then comparison of the remaining lengths. -/
def versionCompareLoop : List String → List String → Int
  | x :: xs, y :: ys =>
    if pyStrLt y x then 1 else if pyStrLt x y then -1 else versionCompareLoop xs ys
  | [], [] => 0
  | [], _ :: _ => -1
  | _ :: _, [] => 1

/-- `AutodetectHelper.version_compare`: split both versions on a dot and
compare componentwise as strings. -/
def version_compare (version1 version2 : String) : Int :=
  versionCompareLoop (pySplitChar version1 '.') (pySplitChar version2 '.')

/-- Stated from the spec's words, for comparison with `version_compare`: the
first unequal pair of components (compared as raw strings, up to the shorter
length) determines the result; if all compared components are equal the
shorter sequence is smaller. -/
def versionCompareSpec (a b : String) : Int :=
  let av := pySplitChar a '.'
  let bv := pySplitChar b '.'
  match (av.zip bv).find? (fun p => p.1 != p.2) with
  | some p => if pyStrLt p.1 p.2 then -1 else 1
  | none =>
    if av.length < bv.length then -1
    else if bv.length < av.length then 1
    else 0

/-- Body of the loop of `AutodetectHelper.__process_flags`: the piece is first
stripped; a piece that starts with the option has it removed and is kept
unless it equals the bare option; other pieces are kept as they are.  `none`
models an iteration that appends nothing. -/
def processFlagsStep (strip_option : Option String) (opt0 : String) : Option String :=
  let opt := pyStrip opt0
  match strip_option with
  | some so =>
    if pyStartsWith opt so then
      if opt ≠ so then some (pyDrop opt (pyLen so)) else none
    else some opt
  | none => some opt

/-- `AutodetectHelper.__process_flags`: split a flag list on single spaces,
run the loop above, then strip every collected entry and drop the ones that
strip to the empty string. -/
def process_flags (astr : String) (strip_option : Option String) : List String :=
  let result := (pySplitChar astr ' ').foldl
    (fun acc opt0 =>
      match processFlagsStep strip_option opt0 with
      | some t => acc ++ [t]
      | none => acc)
    []
  (result.map pyStrip).filter (fun s => s ≠ "")

/-- Stated from the amended claim's words: split on single space characters,
strip each piece of surrounding whitespace, strip the given option from pieces
that start with it (discarding a piece equal to the bare option), keep other
pieces verbatim, and finally drop every piece that strips to the empty
string. -/
def processFlagsSpec (astr : String) (strip_option : Option String) : List String :=
  (pySplitChar astr ' ').filterMap (fun opt0 =>
    match processFlagsStep strip_option opt0 with
    | none => none
    | some t => if pyStrip t = "" then none else some (pyStrip t))

/-- Stated from the frozen claim's words, for comparison with
`process_flags`: the response is tokenized on whitespace; with an option
given, each token starting with it has it stripped and tokens that strip to
nothing or equal the bare option are discarded; without an option, tokens are
kept verbatim. -/
def processFlagsClaim (astr : String) (strip_option : Option String) : List String :=
  (pySplitWs astr).filterMap (fun tok =>
    match strip_option with
    | some so =>
      if pyStartsWith tok so then
        if pyDrop tok (pyLen so) = "" then none else some (pyDrop tok (pyLen so))
      else some tok
    | none => some tok)

/-- Characters of the regex class `[a-zA-Z._-]` used both for variable names
and for `.pc` file keys. -/
def isVarChar (c : Char) : Bool :=
  c.isAlpha || c = '.' || c = '_' || c = '-'

/-- Leftmost match of the search regex of `AutodetectHelper.sub_variables`
(a `$`, an opening brace, a run of `isVarChar` characters, a closing brace):
returns the text before the match, the name inside the braces and the text
after the match. -/
def findTokenSplit : List Char → Option (List Char × List Char × List Char)
  | [] => none
  | c :: rest =>
    if c = '$' then
      match rest with
      | '{' :: rest2 =>
        let nm := rest2.takeWhile isVarChar
        (match rest2.dropWhile isVarChar with
         | '}' :: after => some ([], nm, after)
         | _ => (findTokenSplit rest).map (fun p => (c :: p.1, p.2.1, p.2.2)))
      | _ => (findTokenSplit rest).map (fun p => (c :: p.1, p.2.1, p.2.2))
    else (findTokenSplit rest).map (fun p => (c :: p.1, p.2.1, p.2.2))

/-- The name found by the search regex, if any. -/
def findToken (s : List Char) : Option (List Char) :=
  (findTokenSplit s).map (fun p => p.2.1)

/-- Whether a pattern character matches a subject character in the pattern
`\$\{name\}` that `sub_variables` builds by string interpolation: a `.` in the
name is a regex metacharacter matching any character except a newline. -/
def patCharMatch (p c : Char) : Bool :=
  if p = '.' then c ≠ '\n' else p = c

/-- Match the tail of the interpolated pattern (the name characters followed by
a closing brace) against a subject, returning the rest of the subject. -/
def matchName : List Char → List Char → Option (List Char)
  | [], s =>
    match s with
    | c :: rest => if c = '}' then some rest else none
    | [] => none
  | p :: ps, s =>
    match s with
    | c :: cs => if patCharMatch p c then matchName ps cs else none
    | [] => none

/-- Match the whole interpolated pattern `\$\{name\}` at the head of a
subject. -/
def matchTok (nm : List Char) (s : List Char) : Option (List Char) :=
  match s with
  | c1 :: c2 :: rest =>
    if c1 = '$' then if c2 = '{' then matchName nm rest else none else none
  | _ => none

theorem matchName_length_lt : ∀ (nm s r : List Char),
    matchName nm s = some r → r.length < s.length := by
  intro nm
  induction nm with
  | nil =>
    intro s r h
    cases s with
    | nil => simp [matchName] at h
    | cons c cs =>
      simp only [matchName] at h
      split at h
      · cases h; simp
      · cases h
  | cons p ps ih =>
    intro s r h
    cases s with
    | nil => simp [matchName] at h
    | cons c cs =>
      simp only [matchName] at h
      split at h
      · exact Nat.lt_trans (ih cs r h) (by simp)
      · cases h

theorem matchTok_length_lt (nm s r : List Char) (h : matchTok nm s = some r) :
    r.length < s.length := by
  cases s with
  | nil => simp [matchTok] at h
  | cons c1 rest1 =>
    cases rest1 with
    | nil => simp [matchTok] at h
    | cons c2 rest =>
      simp only [matchTok] at h
      split at h
      · split at h
        · have := matchName_length_lt nm rest r h
          simp only [List.length_cons]
          omega
        · cases h
      · cases h

/-- Model of `re.sub` on the interpolated pattern, with fuel: replace every
non-overlapping match of `\$\{name\}`, scanning left to right, by `val`.
Every step consumes at least one subject character (`matchTok_length_lt`), so
any fuel beyond the subject's length is never exhausted. -/
def reSubAllF : Nat → List Char → List Char → List Char → List Char
  | 0, _, _, s => s
  | _ + 1, _, _, [] => []
  | fuel + 1, nm, val, c :: rest =>
    match matchTok nm (c :: rest) with
    | some rest2 => val ++ reSubAllF fuel nm val rest2
    | none => c :: reSubAllF fuel nm val rest

/-- Model of `re.sub` on the interpolated pattern `\$\{name\}`. -/
def reSubAll (nm val : List Char) (s : List Char) : List Char :=
  reSubAllF (s.length + 1) nm val s

/-- One iteration of the `while` loop of `AutodetectHelper.sub_variables`:
`none` when the search finds no token (the loop exits), otherwise the string
after `re.sub` replaced every match of the found name's pattern with the
variable's value (empty when undefined). -/
def substStep (value : String) (vars : List (String × String)) : Option String :=
  match findToken value.toList with
  | none => none
  | some nm =>
    let val := (vars.lookup nm.asString).getD ""
    some (reSubAll nm val.toList value.toList).asString

/-- `AutodetectHelper.sub_variables`, with explicit fuel bounding the number of
loop iterations (the source has no cycle detection and can loop forever):
`none` models a run that has not terminated within `fuel` iterations. -/
def sub_variables (fuel : Nat) (value : String)
    (vars : List (String × String)) : Option String :=
  match fuel with
  | 0 => none
  | fuel + 1 =>
    match substStep value vars with
    | none => some value
    | some v2 => sub_variables fuel v2 vars

/-- Stated from the claim's words, for comparison with `sub_variables`:
repeatedly find a `$`-brace token scanning from the start and replace that
single occurrence with the variable's value (empty when undefined),
re-scanning from the start after every substitution. -/
def expandClaim (fuel : Nat) (value : String)
    (vars : List (String × String)) : Option String :=
  match fuel with
  | 0 => none
  | fuel + 1 =>
    match findTokenSplit value.toList with
    | none => some value
    | some (before, nm, after) =>
      let val := (vars.lookup nm.asString).getD ""
      expandClaim fuel (before.asString ++ val ++ after.asString) vars

/-! Python dictionaries, modelled as insertion-ordered association lists:
assigning to an existing key overwrites it in place, assigning to a new key
appends it. -/

/-- Python dictionary assignment `m[k] = v` on an association list. -/
def updateA (m : List (String × String)) (k v : String) : List (String × String) :=
  if (m.lookup k).isSome then
    m.map (fun kv => if kv.1 = k then (k, v) else kv)
  else m ++ [(k, v)]

/-- Errors the modelled Python code can raise, plus a marker for a run that
exhausts the model's fuel (the source would still be looping). -/
inductive PyErr where
  | typeError
  | valueError
  | attributeError
  | keyError (k : String)
  | calledProcessError
  | fuelOut
deriving DecidableEq, Repr

/-- Result dictionary of `AutodetectHelper.pc_read`: the top-level `:`
assignments and the nested `variables` mapping from `=` assignments. -/
structure PcFile where
  fields : List (String × String)
  vars : List (String × String)
deriving DecidableEq, Repr

/-- Result dictionary of `AutodetectHelper.pkg_config` and
`read_pc_as_pkg_config`.  An `Option` field models the presence of the
corresponding key: the synthetic fallback results of `find_library` carry only
the `variables` key. -/
structure FlagSet where
  library_dirs : Option (List String)
  libraries : Option (List String)
  ldflags : Option (List String)
  include_dirs : Option (List String)
  cflags : Option (List String)
  vars : List (String × String)
deriving DecidableEq, Repr

/-- The external world seen by `autodetect.py`: `which` over the PATH,
`subprocess.call` exit codes, `subprocess.check_output` (where `none` models a
`CalledProcessError` or failure to produce output), and the filesystem. -/
structure Env where
  which : String → Option String
  call : List String → Int
  checkOutput : List String → Option String
  fileExists : String → Bool
  fileLines : String → List String

/-- Lift a `check_output` result, raising `CalledProcessError` on failure. -/
def orCPE : Option String → Except PyErr String
  | some s => .ok s
  | none => .error .calledProcessError

/-- Lift a fuel-bounded substitution result. -/
def orFuel : Option α → Except PyErr α
  | some a => .ok a
  | none => .error .fuelOut

/-- Match of the line regex `^([a-zA-Z._-]*)\s*([=:])\s*(.*)$` of
`AutodetectHelper.pc_read`: the key, the separator character and the value. -/
def parsePcLine (line : String) : Option (String × Char × String) :=
  let cs := line.toList
  let key := cs.takeWhile isVarChar
  let r1 := (cs.dropWhile isVarChar).dropWhile isPySpace
  match r1 with
  | c :: r2 =>
    if c = '=' || c = ':' then some (key.asString, c, (r2.dropWhile isPySpace).asString)
    else none
  | [] => none

/-- One line of the read loop of `AutodetectHelper.pc_read`. -/
def pcReadLine (acc : PcFile) (line0 : String) : PcFile :=
  let line := pyStrip line0
  if line ≠ "" && !pyStartsWith line "#" then
    match parsePcLine line with
    | some (k, sep, v) =>
      if sep = ':' then { acc with fields := updateA acc.fields k v }
      else { acc with vars := updateA acc.vars k v }
    | none => acc
  else acc

/-- `AutodetectHelper.pc_read`: `none` when the file does not exist, otherwise
the parsed dictionary (which always contains the `variables` key, hence is
never falsy in the source). -/
def pc_read (env : Env) (filename : String) : Option PcFile :=
  if env.fileExists filename then
    some ((env.fileLines filename).foldl pcReadLine ⟨[], []⟩)
  else none

/-- Iteration of `AutodetectHelper.__pc_variables` over the keys of the
mapping: each key's value is substituted against the mapping as already
updated for the keys processed before it. -/
def pcVarsGo (fuel : Nat) : List (String × String) → List String →
    Option (List (String × String))
  | m, [] => some m
  | m, k :: ks =>
    match m.lookup k with
    | none => pcVarsGo fuel m ks
    | some v =>
      match sub_variables fuel v m with
      | none => none
      | some v2 => pcVarsGo fuel (updateA m k v2) ks

/-- `AutodetectHelper.__pc_variables`: in-place substitution over the
variables mapping, one key at a time in insertion order. -/
def pc_variables (fuel : Nat) (vars : List (String × String)) :
    Option (List (String × String)) :=
  pcVarsGo fuel vars (vars.map (fun kv => kv.1))

/-- `AutodetectHelper.__pc_extract_flag` with an `include` option string:
keep the whitespace-split tokens starting with it, strip it, and substitute
variables in each. -/
def pc_extract_with (fuel : Nat) (astr : String) (vars : List (String × String))
    (incl : String) : Option (List String) :=
  ((pySplitWs astr).filter (fun i => pyStartsWith i incl)).mapM
    (fun i => sub_variables fuel (pyDrop i (pyLen incl)) vars)

/-- `AutodetectHelper.__pc_extract_flag` with an `excludes` list: keep the
whitespace-split tokens starting with none of the excluded options, and
substitute variables in each. -/
def pc_extract_without (fuel : Nat) (astr : String) (vars : List (String × String))
    (excludes : List String) : Option (List String) :=
  ((pySplitWs astr).filter
      (fun i => excludes.all (fun v => !pyStartsWith i v))).mapM
    (fun i => sub_variables fuel i vars)

/-- `AutodetectHelper.read_pc_as_pkg_config`: parse a `.pc` file into the same
dictionary shape as `pkg_config`.  A missing `Libs` or `Cflags` key raises a
`KeyError`; `none` is returned only when the file is absent. -/
def read_pc_as_pkg_config (fuel : Nat) (env : Env) (filename : String) :
    Except PyErr (Option FlagSet) :=
  match pc_read env filename with
  | none => .ok none
  | some f => do
    -- `if not f` in the source: the dictionary always carries the `variables`
    -- key, so it is non-empty and truthy whenever the file exists.
    let vars ← orFuel (pc_variables fuel f.vars)
    match f.fields.lookup "Libs" with
    | none => .error (.keyError "Libs")
    | some libs => do
      let libraryDirs ← orFuel (pc_extract_with fuel libs vars "-L")
      let libraries ← orFuel (pc_extract_with fuel libs vars "-l")
      let ldflags ← orFuel (pc_extract_without fuel libs vars ["-l", "-L"])
      match f.fields.lookup "Cflags" with
      | none => .error (.keyError "Cflags")
      | some cflags => do
        let includeDirs ← orFuel (pc_extract_with fuel cflags vars "-I")
        let cflagsOut ← orFuel (pc_extract_without fuel cflags vars ["-I"])
        .ok (some ⟨some libraryDirs, some libraries, some ldflags,
                   some includeDirs, some cflagsOut, vars⟩)

/-- The single existence test chosen by `AutodetectHelper.pkg_config`. -/
def testString (atleast_version exact_version max_version : Option String) : String :=
  match exact_version with
  | some v => "--exact-version=" ++ v
  | none =>
    match atleast_version with
    | some v => "--atleast-version=" ++ v
    | none =>
      match max_version with
      | some v => "--max-version=" ++ v
      | none => "--exists"

/-- The flag and variable queries `AutodetectHelper.pkg_config` issues once
the existence test has passed. -/
def pkgConfigResult (env : Env) (pc nm : String) : Except PyErr FlagSet := do
  let outL ← orCPE (env.checkOutput [pc, "--libs-only-L", nm])
  let outl ← orCPE (env.checkOutput [pc, "--libs-only-l", nm])
  let outOther ← orCPE (env.checkOutput [pc, "--libs-only-other", nm])
  let outI ← orCPE (env.checkOutput [pc, "--cflags-only-I", nm])
  let outCOther ← orCPE (env.checkOutput [pc, "--cflags-only-other", nm])
  let varList ← orCPE (env.checkOutput [pc, "--print-variables", nm])
  let vars ← (pySplitLines varList).foldlM
    (fun acc var => do
      let vv ← orCPE (env.checkOutput [pc, "--variable=" ++ var, nm])
      pure (updateA acc var (pyStrip vv)))
    []
  .ok ⟨some (process_flags outL (some "-L")),
       some (process_flags outl (some "-l")),
       some (process_flags outOther none),
       some (process_flags outI (some "-I")),
       some (process_flags outCOther none),
       vars⟩

/-- `AutodetectHelper.pkg_config`: `.ok none` models the source returning
`None` (tool absent, or a version test failing). -/
def pkg_config (env : Env) (nm : String)
    (atleast_version exact_version max_version : Option String) :
    Except PyErr (Option FlagSet) :=
  match env.which "pkg-config" with
  | none => .ok none
  | some pc =>
    if env.call [pc, testString atleast_version exact_version max_version, nm] ≠ 0 then
      .ok none
    else
      match atleast_version, max_version with
      | some _, some mv =>
        if env.call [pc, "--max-version=" ++ mv, nm] ≠ 0 then .ok none
        else (pkgConfigResult env pc nm).map some
      | _, _ => (pkgConfigResult env pc nm).map some

/-- `AutodetectHelper.brew_prefix`: the stripped output of
`brew --prefix package`, or `None` when the tool is absent or fails. -/
def brewPrefix (env : Env) (package : String) : Option String :=
  match env.which "brew" with
  | none => none
  | some brew =>
    match env.checkOutput [brew, "--prefix", package] with
    | none => none
    | some out => some (pyStrip out)

/-- `AutodetectHelper.port_content`: the stripped non-empty lines of
`port -q contents package`, or `None` when the tool is absent or fails. -/
def port_content (env : Env) (package : String) : Option (List String) :=
  match env.which "port" with
  | none => none
  | some port =>
    match env.checkOutput [port, "-q", "contents", package] with
    | none => none
    | some out =>
      some ((pySplitLines out).filterMap
        (fun s => if s ≠ "" then some (pyStrip s) else none))

/-- The MacPorts tier of `AutodetectHelper.find_library`.  The source calls
`filter(port_files, lambda f: f.endswith(".pc"))` with the list passed as the
function argument of `filter`, which CPython rejects with a `TypeError`, so any
non-empty file list raises instead of reaching the fallback result. -/
def findLibraryPort (env : Env) (nm : String) : Except PyErr (Option FlagSet) :=
  match port_content env nm with
  | some files =>
    if files ≠ [] then .error .typeError
    else .ok none
  | none => .ok none

/-- `AutodetectHelper.find_library`: pkg-config, then Homebrew, then MacPorts,
else not found. -/
def find_library (fuel : Nat) (env : Env) (nm : String) :
    Except PyErr (Option FlagSet) := do
  match ← pkg_config env nm none none none with
  | some r => .ok (some r)
  | none =>
    match brewPrefix env nm with
    | some bp =>
      if bp ≠ "" then
        match ← read_pc_as_pkg_config fuel env (bp ++ "/lib/pkgconfig/" ++ nm ++ ".pc") with
        | none =>
          .ok (some ⟨none, none, none, none, none,
            [("prefix", bp), ("exec_prefix", bp),
             ("libdir", bp ++ "/lib"), ("includedir", bp ++ "/include")]⟩)
        | some r => .ok (some r)
      else findLibraryPort env nm
    | none => findLibraryPort env nm

/-! CPython 2 dictionary iteration order.  The sources iterate plain Python 2
dictionaries (`self.kwargs.iteritems()`, `self.bindings.iteritems()`), whose
order is the hash-table slot order of the default (non-randomized) CPython 2
runtime, not insertion order.  The model below reproduces it: the 64-bit
string hash, the open-addressing probe of `lookdict` (initial slot
`hash & mask`, then `i = 5*i + perturb + 1` with `perturb` starting at the
hash and shifted right by five after each collision), the growth rule of
`dictresize` (quadruple the used count once the fill reaches two thirds,
re-inserting in old slot order), and iteration as ascending slot order.  The
dictionaries of this program are built by keyed insertions and updates only
(no deletions), so dummy entries never arise. -/

/-- The CPython 2 string hash on a 64-bit platform without hash
randomization: `x = ord(s[0]) << 7`, then `x = (1000003*x) ^ ord(c)` over all
characters, then `x ^= len(s)`, with the reserved value `-1` mapped to `-2`;
represented as the unsigned 64-bit value. -/
def py2StrHash (s : String) : Nat :=
  match s.toList with
  | [] => 0
  | c0 :: _ =>
    let m := 2 ^ 64
    let x := s.toList.foldl
      (fun x c => ((1000003 * x) % m) ^^^ c.toNat) ((c0.toNat <<< 7) % m)
    let x := x ^^^ s.toList.length
    if x = m - 1 then m - 2 else x

/-- The probe sequence of `lookdict` for a table without dummy entries:
return the slot holding `key` or the first free slot reached.  The fuel is
generous; a table kept below the two-thirds fill bound always has a free
slot, so the probe sequence (a full-period recurrence once `perturb` is
exhausted) always terminates before the fuel does. -/
def py2Probe {β : Type} (fuel : Nat) (slots : List (Option (String × β)))
    (mask : Nat) (key : String) (i perturb : Nat) : Option Nat :=
  match fuel with
  | 0 => none
  | fuel + 1 =>
    match slots.get? (i &&& mask) with
    | none => none
    | some none => some (i &&& mask)
    | some (some (k, _)) =>
      if k = key then some (i &&& mask)
      else py2Probe fuel slots mask key ((5 * i + perturb + 1) % 2 ^ 64)
        (perturb >>> 5)

/-- Store `key ↦ v` into the slot the probe finds (no resize check). -/
def py2InsertRaw {β : Type} (slots : List (Option (String × β))) (mask : Nat)
    (key : String) (v : β) : List (Option (String × β)) :=
  match py2Probe (64 + 4 * (mask + 1)) slots mask key
    (py2StrHash key &&& mask) (py2StrHash key) with
  | some idx => slots.set idx (some (key, v))
  | none => slots

/-- Whether the table already holds `key`. -/
def py2HasKey {β : Type} (slots : List (Option (String × β))) (key : String) : Bool :=
  slots.any (fun e =>
    match e with
    | some (k, _) => k = key
    | none => false)

/-- The new table size chosen by `dictresize`: the smallest power of two,
starting from eight, strictly greater than `minused`. -/
def py2NextSizeAux : Nat → Nat → Nat → Nat
  | 0, acc, _ => acc
  | fuel + 1, acc, minused =>
    if acc > minused then acc else py2NextSizeAux fuel (acc * 2) minused

/-- The new table size chosen by `dictresize`. -/
def py2NextSize (minused : Nat) : Nat :=
  py2NextSizeAux 64 8 minused

/-- Re-insert the surviving entries, in old slot order, into a fresh table of
the given size (`dictresize`). -/
def py2Rebuild {β : Type} (entries : List (String × β)) (size : Nat) :
    List (Option (String × β)) :=
  entries.foldl (fun slots e => py2InsertRaw slots (size - 1) e.1 e.2)
    (List.replicate size none)

/-- One dictionary assignment `d[key] = v` including the resize check of
`insertdict`: after adding a new key, if the fill reaches two thirds of the
table, grow to hold four times the used count (twice beyond fifty thousand
entries) and re-insert in slot order. -/
def py2InsertResize {β : Type} (slots : List (Option (String × β)))
    (key : String) (v : β) : List (Option (String × β)) :=
  let isNew := !py2HasKey slots key
  let slots2 := py2InsertRaw slots (slots.length - 1) key v
  let fill := slots2.countP Option.isSome
  if isNew && decide (fill * 3 ≥ slots2.length * 2) then
    py2Rebuild (slots2.filterMap id)
      (py2NextSize (if fill > 50000 then fill * 2 else fill * 4))
  else slots2

/-- The slots of the CPython 2 dictionary built by performing the given keyed
assignments in order, starting from the eight-slot small table. -/
def py2DictSlots {β : Type} (entries : List (String × β)) :
    List (Option (String × β)) :=
  entries.foldl (fun slots e => py2InsertResize slots e.1 e.2)
    (List.replicate 8 none)

/-- `iteritems()` of the dictionary built by the given keyed assignments:
the entries in ascending slot order. -/
def py2DictEntries {β : Type} (entries : List (String × β)) :
    List (String × β) :=
  (py2DictSlots entries).filterMap id

/-! The build-graph model of `experimental/init/buildgen.py`. -/

/-- Values handed to the serializer: strings, lists, dictionaries, nested
`BuildSerializable` rule objects, and `BuildGeneratorLabel`s (with the parent
builder abstracted to its package id, which is all `bind` reads when a label
serializes). -/
inductive PyVal where
  | str (s : String)
  | list (xs : List PyVal)
  | dict (xs : List (PyVal × PyVal))
  | node (nm : String) (first : Option PyVal) (kwargs : List (String × PyVal))
  | label (pkg : String) (nm : String) (parentPkg : Option String)

mutual

/-- Python `repr` for the values above, restricted to strings without quotes
or backslashes (the only ones the sources build); rule objects would print an
address-bearing default `repr`, which is not modelled and never reached by the
sources. -/
def pyRepr : PyVal → String
  | .str s => "\x27" ++ s ++ "\x27"
  | .list xs => "[" ++ joinWith ", " (pyReprList xs) ++ "]"
  | .dict xs => "\x7b" ++ joinWith ", " (pyReprPairs xs) ++ "\x7d"
  | .node nm _ _ => "<BuildSerializable " ++ nm ++ ">"
  | .label _ nm _ => "<BuildGeneratorLabel " ++ nm ++ ">"

/-- Helper of `pyRepr` for list elements. -/
def pyReprList : List PyVal → List String
  | [] => []
  | x :: xs => pyRepr x :: pyReprList xs

/-- Helper of `pyRepr` for dictionary entries. -/
def pyReprPairs : List (PyVal × PyVal) → List String
  | [] => []
  | (k, v) :: xs => (pyRepr k ++ ": " ++ pyRepr v) :: pyReprPairs xs

end

mutual

/-- Materialize the dictionary iteration order inside a value: the named
attributes of every nested rule object are put into the CPython 2 hash-table
order in which `serialize` will iterate them.  (The keys of a `select`
dictionary are arbitrary values, whose hashing is not modelled; no claim
touches their order.) -/
def reorderVal : PyVal → PyVal
  | .str s => .str s
  | .list xs => .list (reorderValList xs)
  | .dict xs => .dict (reorderValPairs xs)
  | .node nm first kwargs =>
    .node nm
      (match first with
       | some f => some (reorderVal f)
       | none => none)
      (py2DictEntries (reorderValKw kwargs))
  | .label pkg nm parentPkg => .label pkg nm parentPkg

/-- Helper of `reorderVal` for list elements. -/
def reorderValList : List PyVal → List PyVal
  | [] => []
  | x :: xs => reorderVal x :: reorderValList xs

/-- Helper of `reorderVal` for dictionary entries. -/
def reorderValPairs : List (PyVal × PyVal) → List (PyVal × PyVal)
  | [] => []
  | (k, v) :: xs => (reorderVal k, reorderVal v) :: reorderValPairs xs

/-- Helper of `reorderVal` for named attributes. -/
def reorderValKw : List (String × PyVal) → List (String × PyVal)
  | [] => []
  | (k, v) :: xs => (k, reorderVal v) :: reorderValKw xs

end

/-- Python `str` (the `%s` conversion) of a value. -/
def pyStrOf : PyVal → String
  | .str s => s
  | v => pyRepr v

/-- `BuildSerializable.__escape`: escape backslashes, newlines and both kinds
of quote, in that order. -/
def escapeB (s : String) : String :=
  replaceChar (replaceChar (replaceChar (replaceChar s '\\' "\\\\") '\n' "\\n")
    '"' "\\\"") '\x27' "\\\x27"

/-- `BuildGeneratorLabel.serialize`: through the parent's `bind` when the
label has a parent (whose return value depends only on the parent's package
id), else the plain `//package:name` form. -/
def labelRender (pkg nm : String) (parentPkg : Option String) (pre : String) : String :=
  match parentPkg with
  | some pp => pre ++ "\"" ++ ("//external:" ++ pp ++ "/" ++ nm) ++ "\""
  | none => pre ++ "\"//" ++ pkg ++ ":" ++ nm ++ "\""

/-- The dictionary branch of `BuildSerializable.__serialize` iterates
`for key, value in obj`, which walks the dictionary's keys and unpacks each:
only a two-character string key unpacks (into two one-character strings that
serialize without effect); and the branch never returns the string it builds
(its `return` is missing), so the caller sees Python `None`. -/
def serializeDictKeys : List (PyVal × PyVal) → Except PyErr Unit
  | [] => .ok ()
  | (k, _) :: rest =>
    match k with
    | .str s => if pyLen s = 2 then serializeDictKeys rest else .error .valueError
    | _ => .error .typeError

/-- Python `%s` of a value that may be `None`. -/
def pyFmtOpt : Option String → String
  | some s => s
  | none => "None"

/-- The opening of `BuildSerializable.serialize`: the rule type, a
parenthesis, and the optional positional value rendered with `%s`. -/
def ruleHead (nm : String) (first : Option PyVal) (pre : String) : String :=
  match first with
  | some f => nm ++ "(\n" ++ (pre ++ "    ") ++ pyStrOf f ++ ",\n"
  | none => nm ++ "(\n"

mutual

/-- `BuildSerializable.__serialize`: `some` rendered text, or `none` for the
dictionary branch, which falls off the function and returns Python `None`. -/
def serializeObj : PyVal → String → Except PyErr (Option String)
  | .list items, pre =>
    match serializeItems items (pre ++ "    ") with
    | .error e => .error e
    | .ok body => .ok (some (pre ++ "[\n" ++ body ++ pre ++ "]"))
  | .dict entries, _ =>
    match serializeDictKeys entries with
    | .error e => .error e
    | .ok _ => .ok none
  | .node nm first kwargs, pre =>
    -- `obj.serialize(prefix)`, with the body of `serialize` (see
    -- `serializeRule` below) inlined so that the recursion is structural
    match serializeAttrs kwargs (pre ++ "    ") with
    | .error e => .error e
    | .ok body => .ok (some (ruleHead nm first pre ++ body ++ pre ++ ")\n"))
  | .label pkg nm parentPkg, pre => .ok (some (labelRender pkg nm parentPkg pre))
  | .str s, pre => .ok (some (pre ++ "\"" ++ escapeB s ++ "\""))

/-- The item loop of the list branch of `BuildSerializable.__serialize`. -/
def serializeItems : List PyVal → String → Except PyErr String
  | [], _ => .ok ""
  | it :: rest, subpre =>
    match serializeObj it subpre with
    | .error e => .error e
    | .ok s =>
      match serializeItems rest subpre with
      | .error e => .error e
      | .ok tail => .ok (pyFmtOpt s ++ ",\n" ++ tail)

/-- The attribute loop of `BuildSerializable.serialize`: each value is
serialized with a fresh four-space prefix and stripped; a value whose
serialization returned Python `None` (a dictionary) raises `AttributeError`
at the `.strip()` call. -/
def serializeAttrs : List (String × PyVal) → String → Except PyErr String
  | [], _ => .ok ""
  | (k, v) :: rest, newpre =>
    match serializeObj v "    " with
    | .error e => .error e
    | .ok none => .error .attributeError
    | .ok (some t) =>
      match serializeAttrs rest newpre with
      | .error e => .error e
      | .ok tail => .ok (newpre ++ k ++ " = " ++ pyStrip t ++ ",\n" ++ tail)

end

/-- `BuildSerializable.serialize` over an already-materialized attribute
list: the rule type, the optional positional value rendered with `%s`, then
every named attribute in list order.  (The same expression is inlined in the
`.node` case of `serializeObj`.) -/
def serializeRule (nm : String) (first : Option PyVal)
    (kwargs : List (String × PyVal)) (pre : String) : Except PyErr String :=
  match serializeAttrs kwargs (pre ++ "    ") with
  | .error e => .error e
  | .ok body => .ok (ruleHead nm first pre ++ body ++ pre ++ ")\n")

/-- `BuildSerializable.serialize` of a rule object as the program runs it:
the `**kwargs` dictionary (and every nested rule object's dictionary) is
iterated in CPython 2 hash-table order, materialized by `reorderVal` /
`py2DictEntries`, and then rendered. -/
def serializeRuleDict (nm : String) (first : Option PyVal)
    (kwargs : List (String × PyVal)) (pre : String) : Except PyErr String :=
  serializeRule nm
    (match first with
     | some f => some (reorderVal f)
     | none => none)
    (py2DictEntries (reorderValKw kwargs)) pre

/-- One rendered named attribute of `BuildSerializable.serialize`. -/
def pieceRender (newpre : String) (kv : String × PyVal) : Except PyErr String := do
  let s ← serializeObj kv.2 "    "
  match s with
  | none => .error .attributeError
  | some t => .ok (newpre ++ kv.1 ++ " = " ++ pyStrip t ++ ",\n")

/-- One `BuildSerializable` rule object: its type, optional positional value
and insertion-ordered named attributes. -/
structure RuleS where
  nm : String
  first : Option PyVal
  kwargs : List (String × PyVal)

/-- Python dictionary assignment on an association list of `PyVal` values. -/
def updateKw (m : List (String × PyVal)) (k : String) (v : PyVal) :
    List (String × PyVal) :=
  if (m.lookup k).isSome then
    m.map (fun kv => if kv.1 = k then (k, v) else kv)
  else m ++ [(k, v)]

/-- State of one `BuildGeneratorHelper`: the package id, the optional parent's
package id, in-package rules, workspace rules, the bindings table (keyed by
the bound name), the nested repositories (name to child package id), the
exported embedded files and the staged files. -/
structure BGH where
  package : String
  parentPkg : Option String
  rules : List RuleS
  workspace : List RuleS
  bindings : List (String × RuleS)
  repositories : List (String × String)
  embedded : List String
  files : List (String × String)

/-- The `bind` RuleNode stored by `BuildGeneratorHelper.bind`: its `name`
attribute joins the builder's own package with the bound name, its `actual`
attribute joins the `package` argument with the bound name. -/
def bindRule (selfPackage argPackage nm : String) : RuleS :=
  ⟨"bind", none,
    [("name", .str (selfPackage ++ "/" ++ nm)),
     ("actual", .str (argPackage ++ ":" ++ nm))]⟩

/-- `BuildGeneratorHelper.bind`: the bindings table is keyed by the name
alone; the returned label always uses the builder's own package id. -/
def bind (h : BGH) (pkg nm : String) : BGH × String :=
  (if (h.bindings.lookup nm).isNone then
     { h with bindings := h.bindings ++ [(nm, bindRule h.package pkg nm)] }
   else h,
   "//external:" ++ h.package ++ "/" ++ nm)

/-- `BuildGeneratorHelper.rule`: append a rule to the in-package list (the
returned label reads the `name` attribute, raising `KeyError` if absent). -/
def ruleOp (h : BGH) (nm : String) (kwargs : List (String × PyVal)) :
    Except PyErr BGH :=
  match kwargs.lookup "name" with
  | none => .error (.keyError "name")
  | some _ => .ok { h with rules := h.rules ++ [⟨nm, none, kwargs⟩] }

/-- `BuildGeneratorHelper.new_repository`: synthesize the child package id,
rewrite the `name` attribute, inject `build_file`, append the rule to the
workspace list and register the child builder. -/
def newRepository (h : BGH) (ruleType : String) (kwargs : List (String × PyVal)) :
    Except PyErr BGH :=
  match kwargs.lookup "name" with
  | some (.str nm) =>
    let buildFileAttr := h.package ++ "/" ++ "BUILD." ++ nm
    let newname := replaceChar h.package '/' "-" ++ "-" ++ nm
    let kwargs2 := updateKw (updateKw kwargs "name" (.str newname))
      "build_file" (.str buildFileAttr)
    .ok { h with
      workspace := h.workspace ++ [⟨ruleType, none, kwargs2⟩],
      repositories := h.repositories ++ [(nm, "@" ++ newname)] }
  | some _ => .error .typeError
  | none => .error (.keyError "name")

/-- `BuildGeneratorHelper.exports_embedded`: record the name and append an
`exports_files` rule whose positional value is the singleton list. -/
def exportsEmbedded (h : BGH) (nm : String) : BGH :=
  { h with
    embedded := h.embedded ++ [nm],
    rules := h.rules ++ [⟨"exports_files", some (.list [.str nm]), []⟩] }

/-- `BuildGeneratorHelper.scratch_file`. -/
def scratchFile (h : BGH) (nm content : String) : BGH :=
  { h with files := updateA h.files nm content }

/-- One build operation of the claim's vocabulary. -/
inductive BOp where
  | addRule (nm : String) (kwargs : List (String × PyVal))
  | declareRepository (ruleType : String) (kwargs : List (String × PyVal))
  | bindOp (pkg : String) (nm : String)
  | exportEmbedded (nm : String)
  | stageFile (path : String) (content : String)

/-- Apply one operation to a builder. -/
def runOp (h : BGH) : BOp → Except PyErr BGH
  | .addRule nm kwargs => ruleOp h nm kwargs
  | .declareRepository ruleType kwargs => newRepository h ruleType kwargs
  | .bindOp pkg nm => .ok (bind h pkg nm).1
  | .exportEmbedded nm => .ok (exportsEmbedded h nm)
  | .stageFile p c => .ok (scratchFile h p c)

/-- Apply a sequence of operations to a builder. -/
def runOps (h : BGH) (ops : List BOp) : Except PyErr BGH :=
  ops.foldlM runOp h

/-- The fixed banner of `BuildGeneratorHelper.__build_file`. -/
def buildFileBanner : String :=
  "# This file was auto-generated. Do not edit.\n" ++
  "# If you wish to overwrite this package, copy the package\n" ++
  "# into your workspace\n" ++
  "package(default_visibility = [\"//visibility:public\"])\n"

/-- `BuildGeneratorHelper.__build_file`: the banner, then every in-package
rule serialized with the default empty prefix (the rule list is a Python
list, iterated in order). -/
def buildFile (h : BGH) : Except PyErr String :=
  h.rules.foldlM
    (fun acc r => do
      let s ← serializeRuleDict r.nm r.first r.kwargs ""
      pure (acc ++ "\n" ++ s))
    buildFileBanner

/-- `BuildGeneratorHelper.__workspace_file`: a header naming the package, then
every workspace rule (a Python list, in order), then every binding rule —
`self.bindings` is a Python 2 dictionary, iterated in hash-table order. -/
def workspaceFile (h : BGH) : Except PyErr String := do
  let head := "#\n# Generated part from package " ++ h.package ++ "\n#\n"
  let mid ← h.workspace.foldlM
    (fun acc r => do
      let s ← serializeRuleDict r.nm r.first r.kwargs ""
      pure (acc ++ "\n" ++ s))
    head
  (py2DictEntries h.bindings).foldlM
    (fun acc kv => do
      let s ← serializeRuleDict kv.2.nm kv.2.first kv.2.kwargs ""
      pure (acc ++ "\n" ++ s))
    mid

/-! The package merging of `experimental/init/packgen.py`.  An archive is its
ordered list of (entry name, content) pairs. -/

/-- Inner loop of `merge_package` over one input archive's entries: a
`WORKSPACE` entry is concatenated (with a trailing newline) onto the workspace
accumulator, every other entry is copied to the output. -/
def mergeEntry (acc : List (String × String) × String) (e : String × String) :
    List (String × String) × String :=
  if e.1 = "WORKSPACE" then (acc.1, acc.2 ++ e.2 ++ "\n")
  else (acc.1 ++ [e], acc.2)

/-- `merge_package`: fold every input archive in listed order, then write the
accumulated `WORKSPACE` as the final entry. -/
def merge_package (packages : List (List (String × String))) :
    List (String × String) :=
  let r := packages.foldl (fun acc p => p.foldl mergeEntry acc) ([], "")
  r.1 ++ [("WORKSPACE", r.2)]

/-! Auxiliary definitions used by the statements below. -/

/-- Concatenation of a list of strings. -/
def strConcat (l : List String) : String :=
  l.foldr (fun a b => a ++ b) ""

/-- The key of a line that `pc_read` treats as a top-level `:` assignment, if
any (the line survives stripping, is not a comment, and matches the line regex
with separator `:`). -/
def colonAssignKey (line : String) : Option String :=
  let l := pyStrip line
  if l ≠ "" && !pyStartsWith l "#" then
    match parsePcLine l with
    | some (k, sep, _) => if sep = ':' then some k else none
    | none => none
  else none

/-- A host with only MacPorts: `port -q contents somelib` lists one `.pc`
file; pkg-config and Homebrew are absent. -/
def envPortOnly : Env :=
  ⟨fun p => if p = "port" then some "/usr/bin/port" else none,
   fun _ => 1,
   fun args =>
     if args = ["/usr/bin/port", "-q", "contents", "somelib"] then
       some "/opt/local/lib/pkgconfig/somelib.pc\n"
     else none,
   fun _ => false,
   fun _ => []⟩

/-- A host with only Homebrew: `brew --prefix somelib` answers `/usr/local`,
and no `.pc` file exists anywhere. -/
def envBrewOnly : Env :=
  ⟨fun p => if p = "brew" then some "/usr/local/bin/brew" else none,
   fun _ => 1,
   fun args =>
     if args = ["/usr/local/bin/brew", "--prefix", "somelib"] then
       some "/usr/local\n"
     else none,
   fun _ => false,
   fun _ => []⟩

/-- A host whose pkg-config accepts `--atleast-version=1.0 x` and rejects
every other invocation. -/
def envPkgAtLeast : Env :=
  ⟨fun p => if p = "pkg-config" then some "/pc" else none,
   fun args => if args = ["/pc", "--atleast-version=1.0", "x"] then 0 else 1,
   fun _ => none,
   fun _ => false,
   fun _ => []⟩

/-- A filesystem holding one `.pc` file whose only line defines a variable in
terms of itself. -/
def envCyclicPc : Env :=
  ⟨fun _ => none, fun _ => 1, fun _ => none,
   fun f => f = "/f.pc",
   fun f => if f = "/f.pc" then ["a=$\x7ba\x7d"] else []⟩

/-- A filesystem holding one `.pc` file with a comment and one variable, and
no `Libs` or `Cflags` line. -/
def envVarsOnlyPc : Env :=
  ⟨fun _ => none, fun _ => 1, fun _ => none,
   fun f => f = "/g.pc",
   fun f => if f = "/g.pc" then ["# comment", "prefix=/usr"] else []⟩

/-! Helper lemmas. -/

theorem lookup_mapUpd (m : List (String × String)) (k2 k v : String)
    (h : k2 ≠ k) :
    (m.map (fun kv => if kv.1 = k then (k, v) else kv)).lookup k2 = m.lookup k2 := by
  induction m with
  | nil => rfl
  | cons a m ih =>
    obtain ⟨a1, a2⟩ := a
    simp only [List.map_cons]
    by_cases ha : a1 = k
    · subst ha
      rw [if_pos rfl]
      rw [List.lookup_cons, List.lookup_cons, beq_false_of_ne h, ih]
    · rw [if_neg ha, List.lookup_cons, List.lookup_cons]
      cases hb : (k2 == a1) <;> simp [ih]

theorem lookup_append_single_ne (m : List (String × String)) (k2 k v : String)
    (h : k2 ≠ k) :
    ((m ++ [(k, v)]).lookup k2) = m.lookup k2 := by
  induction m with
  | nil => simp [List.lookup_cons, beq_false_of_ne h, List.lookup]
  | cons a m ih =>
    obtain ⟨a1, a2⟩ := a
    simp only [List.cons_append, List.lookup_cons]
    cases hb : (k2 == a1) <;> simp [ih]

theorem lookup_updateA_ne (m : List (String × String)) (k2 k v : String)
    (h : k2 ≠ k) :
    (updateA m k v).lookup k2 = m.lookup k2 := by
  unfold updateA
  split
  · exact lookup_mapUpd m k2 k v h
  · exact lookup_append_single_ne m k2 k v h

theorem lookup_append_singleton {β : Type} (l : List (String × β)) (k : String)
    (v : β) (h : l.lookup k = none) :
    (l ++ [(k, v)]).lookup k = some v := by
  induction l with
  | nil => simp [List.lookup]
  | cons a l ih =>
    obtain ⟨a1, a2⟩ := a
    simp only [List.lookup] at h
    simp only [List.cons_append, List.lookup]
    cases hb : (k == a1) with
    | true => rw [hb] at h; cases h
    | false => rw [hb] at h; exact ih h

theorem listLtChar_irrefl (l : List Char) : listLtChar l l = false := by
  induction l with
  | nil => rfl
  | cons a l ih => simp [listLtChar, ih]

theorem listLtChar_asymm (as bs : List Char) (h : listLtChar as bs = true) :
    listLtChar bs as = false := by
  induction as generalizing bs with
  | nil =>
    cases bs with
    | nil => cases h
    | cons b bs => rfl
  | cons a as ih =>
    cases bs with
    | nil => cases h
    | cons b bs =>
      simp only [listLtChar] at h ⊢
      by_cases hab : a.toNat < b.toNat
      · have hba : ¬ b.toNat < a.toNat := by omega
        simp [hab, hba]
      · by_cases hba : b.toNat < a.toNat
        · simp [hab, hba] at h
        · simp only [if_neg hab, if_neg hba] at h
          simp [hab, hba, ih bs h]

theorem listLtChar_eq_of_not_lt (as bs : List Char)
    (h1 : listLtChar as bs = false) (h2 : listLtChar bs as = false) : as = bs := by
  induction as generalizing bs with
  | nil =>
    cases bs with
    | nil => rfl
    | cons b bs => cases h1
  | cons a as ih =>
    cases bs with
    | nil => cases h2
    | cons b bs =>
      simp only [listLtChar] at h1 h2
      by_cases hab : a.toNat < b.toNat
      · simp [hab] at h1
      · by_cases hba : b.toNat < a.toNat
        · simp [hba] at h2
        · have hn : a.toNat = b.toNat := by omega
          have hc : a = b := Char.ext (UInt32.ext hn)
          simp only [if_neg hab, if_neg hba] at h1 h2
          rw [hc, ih bs h1 h2]

theorem pyStrLt_eq_of_not_lt (x y : String) (h1 : pyStrLt x y = false)
    (h2 : pyStrLt y x = false) : x = y := by
  have hl := listLtChar_eq_of_not_lt x.toList y.toList h1 h2
  cases x; cases y
  simp only [String.toList] at hl
  exact congrArg String.mk hl

theorem versionCompareLoop_eq (xs ys : List String) :
    versionCompareLoop xs ys =
      (match (xs.zip ys).find? (fun p => p.1 != p.2) with
       | some p => if pyStrLt p.1 p.2 then -1 else 1
       | none =>
         if xs.length < ys.length then -1
         else if ys.length < xs.length then 1 else 0) := by
  induction xs generalizing ys with
  | nil => cases ys <;> simp [versionCompareLoop]
  | cons x xs ih =>
    cases ys with
    | nil => simp [versionCompareLoop]
    | cons y ys =>
      by_cases hxy : x = y
      · subst hxy
        have hlt : pyStrLt x x = false := listLtChar_irrefl x.toList
        simp [versionCompareLoop, hlt, ih ys, Nat.succ_lt_succ_iff]
      · have hbne : (x != y) = true := by simp [hxy]
        simp only [versionCompareLoop, List.zip_cons_cons, List.find?_cons, hbne]
        cases hlt : pyStrLt y x with
        | true =>
          have : pyStrLt x y = false := listLtChar_asymm y.toList x.toList hlt
          simp [this]
        | false =>
          cases hlt2 : pyStrLt x y with
          | true => simp [hlt2]
          | false => exact absurd (pyStrLt_eq_of_not_lt x y hlt2 hlt) hxy

/-! Settling the claims. -/

/-- C8: `version_compare` splits both version strings on dots, compares the
components pairwise as raw strings up to the shorter length, returns the sign
of the first unequal pair, and otherwise compares the component counts; in
particular the four quoted examples hold. -/
theorem c8_version_compare_is_lexical :
    (∀ a b, version_compare a b = versionCompareSpec a b)
    ∧ version_compare "1.7.0" "2" = -1
    ∧ version_compare "2.3.1" "2.1" = 1
    ∧ version_compare "1.2" "1.2" = 0
    ∧ version_compare "1.2" "1.2.0" = -1 :=
  ⟨fun a b => versionCompareLoop_eq (pySplitChar a '.') (pySplitChar b '.'),
   rfl, rfl, rfl, rfl⟩

theorem processFlagsFold_eq (so : Option String) (ts : List String)
    (acc : List String) :
    ts.foldl (fun acc opt0 =>
      match processFlagsStep so opt0 with
      | some t => acc ++ [t]
      | none => acc) acc
    = acc ++ ts.filterMap (processFlagsStep so) := by
  induction ts generalizing acc with
  | nil => simp
  | cons t ts ih =>
    simp only [List.foldl_cons, List.filterMap_cons]
    cases h : processFlagsStep so t with
    | none => simp only [h]; exact ih acc
    | some v => simp only [h]; rw [ih]; simp

theorem processFlagsPost_eq (so : Option String) (ts : List String) :
    ((ts.filterMap (processFlagsStep so)).map pyStrip).filter (fun s => s ≠ "")
    = ts.filterMap (fun opt0 =>
        match processFlagsStep so opt0 with
        | none => none
        | some t => if pyStrip t = "" then none else some (pyStrip t)) := by
  induction ts with
  | nil => rfl
  | cons t ts ih =>
    simp only [List.filterMap_cons]
    cases h : processFlagsStep so t with
    | none => simp only [h]; exact ih
    | some v =>
      simp only [h, List.map_cons, List.filter_cons]
      by_cases hv : pyStrip v = ""
      · simp [hv, ← ih]
      · simp [hv, ← ih]

/-- C6 counterexample: the source splits on single space characters, not on
whitespace, so a response whose flags are separated by a newline is kept as
one token (with the leading option stripped once) instead of two. -/
theorem c6_counterexample :
    process_flags "-La\n-Lb" (some "-L") = ["a\n-Lb"]
    ∧ processFlagsClaim "-La\n-Lb" (some "-L") = ["a", "b"]
    ∧ process_flags "-La\n-Lb" (some "-L") ≠ processFlagsClaim "-La\n-Lb" (some "-L") :=
  ⟨rfl, rfl, by decide⟩

/-- C6 (amended): the response is split on single space characters; each
piece is stripped of surrounding whitespace; with an option given, a stripped
piece starting with it has the option removed and a piece equal to the bare
option is discarded, other pieces are kept verbatim; finally every piece is
stripped again and pieces that strip to the empty string are dropped. -/
theorem c6_process_flags_spec :
    ∀ astr so, process_flags astr so = processFlagsSpec astr so := by
  intro astr so
  unfold process_flags processFlagsSpec
  rw [processFlagsFold_eq]
  simpa using processFlagsPost_eq so (pySplitChar astr ' ')

theorem substStep_eq_none_iff (v : String) (vars : List (String × String)) :
    substStep v vars = none ↔ findToken v.toList = none := by
  unfold substStep
  cases h : findToken v.toList <;> simp [h]

/-- C7 counterexample: `sub_variables` interpolates the found name into a new
regex, so a `.` inside a variable name matches any character and `re.sub`
replaces every match, not the single found token: on `"$\x7ba.b\x7d$\x7baxb\x7d"` with
`a.b = X` the source produces `"XX"` while the claim's procedure (replace the
one found token, re-scan, drop the undefined `axb`) produces `"X"`. -/
theorem c7_counterexample :
    sub_variables 10 "$\x7ba.b\x7d$\x7baxb\x7d" [("a.b", "X")] = some "XX"
    ∧ expandClaim 10 "$\x7ba.b\x7d$\x7baxb\x7d" [("a.b", "X")] = some "X"
    ∧ sub_variables 10 "$\x7ba.b\x7d$\x7baxb\x7d" [("a.b", "X")]
      ≠ expandClaim 10 "$\x7ba.b\x7d$\x7baxb\x7d" [("a.b", "X")] :=
  ⟨rfl, rfl, by decide⟩

/-- C7 (amended): on each iteration `expand` finds the leftmost token
scanning from the start and replaces every non-overlapping match of the
pattern built from the found name (in which `.` matches any non-newline
character) by the variable's value, or the empty string when the name is
undefined; it re-scans from the start after every substitution step and
returns only when no token remains; in particular
`expand("$\x7bexec_prefix\x7d/lib")` with `exec_prefix = $\x7bprefix\x7d` and
`prefix = /usr/local` yields `"/usr/local/lib"`. -/
theorem c7_expansion_amended :
    (∀ fuel v vars r, sub_variables fuel v vars = some r → findToken r.toList = none)
    ∧ (∀ v vars before nm after,
        findTokenSplit v.toList = some (before, nm, after) →
        substStep v vars =
          some (reSubAll nm ((vars.lookup nm.asString).getD "").toList
            v.toList).asString)
    ∧ sub_variables 10 "$\x7bexec_prefix\x7d/lib"
        [("exec_prefix", "$\x7bprefix\x7d"), ("prefix", "/usr/local")] =
      some "/usr/local/lib" := by
  refine ⟨?_, ?_, rfl⟩
  · intro fuel
    induction fuel with
    | zero =>
      intro v vars r h
      simp [sub_variables] at h
    | succ n ih =>
      intro v vars r h
      rw [sub_variables] at h
      cases hs : substStep v vars with
      | none =>
        rw [hs] at h
        cases h
        exact (substStep_eq_none_iff v vars).mp hs
      | some v2 =>
        rw [hs] at h
        exact ih v2 vars r h
  · intro v vars before nm after h
    unfold substStep findToken
    rw [h]
    rfl

/-- C7 witness: the amended theorem applied to the two-level example. -/
theorem c7_expansion_witness :
    findToken (String.toList "/usr/local/lib") = none :=
  c7_expansion_amended.1 10 "$\x7bexec_prefix\x7d/lib"
    [("exec_prefix", "$\x7bprefix\x7d"), ("prefix", "/usr/local")]
    "/usr/local/lib" rfl

/-- C3: when the pkg-config and brew tiers fail and the port file list is
non-empty, `find_library` does not pick and parse a `.pc` file: the call
`filter(port_files, lambda f: f.endswith(".pc"))` passes the list where
`filter` expects the function, so CPython raises a `TypeError` before the
fallback result can be built. -/
theorem c3_port_tier_raises_type_error :
    port_content envPortOnly "somelib" = some ["/opt/local/lib/pkgconfig/somelib.pc"]
    ∧ find_library 10 envPortOnly "somelib" = .error .typeError :=
  ⟨rfl, rfl⟩

theorem pcReadLine_fields_lookup (acc : PcFile) (line : String)
    (h : colonAssignKey line ≠ some "Libs") :
    (pcReadLine acc line).fields.lookup "Libs" = acc.fields.lookup "Libs" := by
  simp only [colonAssignKey] at h
  simp only [pcReadLine]
  split
  case isTrue hc =>
    rw [if_pos hc] at h
    cases hp : parsePcLine (pyStrip line) with
    | none => rfl
    | some kv =>
      obtain ⟨k, sep, v⟩ := kv
      rw [hp] at h
      dsimp only at h ⊢
      by_cases hs : sep = ':'
      · rw [if_pos hs] at h
        rw [if_pos hs]
        have hk : "Libs" ≠ k := fun he => h (by rw [← he])
        exact lookup_updateA_ne acc.fields "Libs" k v hk
      · rw [if_neg hs]
  case isFalse => rfl

theorem pcReadFold_fields_lookup (lines : List String) (acc : PcFile)
    (h : ∀ l ∈ lines, colonAssignKey l ≠ some "Libs") :
    (lines.foldl pcReadLine acc).fields.lookup "Libs" = acc.fields.lookup "Libs" := by
  induction lines generalizing acc with
  | nil => rfl
  | cons l lines ih =>
    rw [List.foldl_cons, ih _ (fun x hx => h x (List.mem_cons_of_mem _ hx)),
      pcReadLine_fields_lookup acc l (h l (List.mem_cons_self _ _))]

theorem read_pc_ne_ok_none_of_exists (fuel : Nat) (env : Env) (fn : String)
    (f : PcFile) (h : pc_read env fn = some f) :
    read_pc_as_pkg_config fuel env fn ≠ .ok none := by
  unfold read_pc_as_pkg_config
  rw [h]
  simp only [Bind.bind, Except.bind, orFuel]
  cases hv : pc_variables fuel f.vars with
  | none => simp [hv]
  | some vars =>
    simp only [hv]
    cases hlibs : f.fields.lookup "Libs" with
    | none => simp [hlibs]
    | some libs =>
      simp only [hlibs]
      cases h1 : pc_extract_with fuel libs vars "-L" with
      | none => simp [h1]
      | some l1 =>
        simp only [h1]
        cases h2 : pc_extract_with fuel libs vars "-l" with
        | none => simp [h2]
        | some l2 =>
          simp only [h2]
          cases h3 : pc_extract_without fuel libs vars ["-l", "-L"] with
          | none => simp [h3]
          | some l3 =>
            simp only [h3]
            cases hcf : f.fields.lookup "Cflags" with
            | none => simp [hcf]
            | some cf =>
              simp only [hcf]
              cases h4 : pc_extract_with fuel cf vars "-I" with
              | none => simp [h4]
              | some l4 =>
                simp only [h4]
                cases h5 : pc_extract_without fuel cf vars ["-I"] with
                | none => simp [h5]
                | some l5 => simp [h5]

/-- C10 (amended): for an existing `.pc` file with no `Libs`-assigning line,
whenever the in-place variable substitution over its `variables` mapping
terminates, `read_pc_as_pkg_config` raises `KeyError` at the `Libs` lookup
rather than returning a not-found or partial result; `pc_read` returns a
truthy dictionary whenever the file exists; the not-found result arises
exactly when the file is absent.  (A cyclically-defined variable makes the
substitution loop run forever before the lookup is reached.) -/
theorem c10_read_pc_missing_libs :
    ∀ (fuel : Nat) (env : Env) (fn : String),
    (env.fileExists fn = false → read_pc_as_pkg_config fuel env fn = .ok none)
    ∧ (read_pc_as_pkg_config fuel env fn = .ok none → env.fileExists fn = false)
    ∧ (env.fileExists fn = true → (pc_read env fn).isSome = true)
    ∧ (∀ f, pc_read env fn = some f →
        (∀ l ∈ env.fileLines fn, colonAssignKey l ≠ some "Libs") →
        pc_variables fuel f.vars ≠ none →
        read_pc_as_pkg_config fuel env fn = .error (.keyError "Libs")) := by
  intro fuel env fn
  refine ⟨?_, ?_, ?_, ?_⟩
  · intro h
    unfold read_pc_as_pkg_config pc_read
    rw [h]
    rfl
  · intro h
    by_cases he : env.fileExists fn = true
    · exact absurd h
        (read_pc_ne_ok_none_of_exists fuel env fn
          ((env.fileLines fn).foldl pcReadLine ⟨[], []⟩)
          (by simp [pc_read, he]))
    · simpa using he
  · intro he
    simp [pc_read, he]
  · intro f hf hlines hvars
    have hfold : f = (env.fileLines fn).foldl pcReadLine ⟨[], []⟩ := by
      unfold pc_read at hf
      split at hf
      · exact (Option.some.inj hf).symm
      · cases hf
    have hlook : f.fields.lookup "Libs" = none := by
      rw [hfold]
      exact pcReadFold_fields_lookup (env.fileLines fn) ⟨[], []⟩ hlines
    unfold read_pc_as_pkg_config
    rw [hf]
    cases hv : pc_variables fuel f.vars with
    | none => exact absurd hv hvars
    | some vars => simp [orFuel, Bind.bind, Except.bind, hv, hlook]

/-- C10 counterexample: a `.pc` file whose only line is the cyclic definition
`a=$\x7ba\x7d` exists and has no `Libs` line, but the substitution step over the
variable maps `$\x7ba\x7d` to itself while a token remains, so the source loops
forever inside `__pc_variables` and the `Libs` lookup is never reached; in the
fuelled model every fuel is exhausted instead of raising the key error. -/
theorem c10_counterexample :
    pc_read envCyclicPc "/f.pc" = some ⟨[], [("a", "$\x7ba\x7d")]⟩
    ∧ substStep "$\x7ba\x7d" [("a", "$\x7ba\x7d")] = some "$\x7ba\x7d"
    ∧ (findToken (String.toList "$\x7ba\x7d")).isSome = true
    ∧ read_pc_as_pkg_config 100 envCyclicPc "/f.pc" = .error .fuelOut
    ∧ (Except.error PyErr.fuelOut : Except PyErr (Option FlagSet))
      ≠ .error (.keyError "Libs") :=
  ⟨rfl, rfl, rfl, rfl, by simp⟩

/-- C10 witness: the amended theorem applied to a file holding one comment
and one variable definition. -/
theorem c10_witness :
    read_pc_as_pkg_config 10 envVarsOnlyPc "/g.pc" = .error (.keyError "Libs") :=
  (c10_read_pc_missing_libs 10 envVarsOnlyPc "/g.pc").2.2.2
    ⟨[], [("prefix", "/usr")]⟩ rfl (by decide) (by decide)

theorem strAppend_assoc (a b c : String) : a ++ b ++ c = a ++ (b ++ c) := by
  cases a; cases b; cases c
  exact congrArg String.mk (List.append_assoc _ _ _)

theorem strAppend_empty_left (a : String) : "" ++ a = a := by
  cases a
  rfl

theorem except_map_some_ne_ok_none (e : Except PyErr FlagSet) :
    e.map some ≠ .ok none := by
  cases e <;> simp [Except.map]

/-- C5: `pkg_config` chooses its single existence test with priority
exact-version, at-least-version, max-version, bare `--exists`; and a
not-found result arises exactly when the tool is absent, the existence test
exits nonzero, or — when both an at-least and a max version were given — the
additional `--max-version` check exits nonzero. -/
theorem c5_pkg_config_existence_tests :
    ∀ (env : Env) (nm : String) (av ev mv : Option String),
    (∀ v, ev = some v → testString av ev mv = "--exact-version=" ++ v)
    ∧ (ev = none → ∀ v, av = some v →
        testString av ev mv = "--atleast-version=" ++ v)
    ∧ (ev = none → av = none → ∀ v, mv = some v →
        testString av ev mv = "--max-version=" ++ v)
    ∧ (ev = none → av = none → mv = none → testString av ev mv = "--exists")
    ∧ (env.which "pkg-config" = none → pkg_config env nm av ev mv = .ok none)
    ∧ (∀ p, env.which "pkg-config" = some p →
        (pkg_config env nm av ev mv = .ok none ↔
          (env.call [p, testString av ev mv, nm] ≠ 0
           ∨ ∃ a b, av = some a ∧ mv = some b
               ∧ env.call [p, "--max-version=" ++ b, nm] ≠ 0))) := by
  intro env nm av ev mv
  refine ⟨?_, ?_, ?_, ?_, ?_, ?_⟩
  · intro v hv; simp [testString, hv]
  · intro he v ha; simp [testString, he, ha]
  · intro he ha v hm; simp [testString, he, ha, hm]
  · intro he ha hm; simp [testString, he, ha, hm]
  · intro h; simp [pkg_config, h]
  · intro p hp
    unfold pkg_config
    rw [hp]
    dsimp only
    by_cases hc : env.call [p, testString av ev mv, nm] = 0
    · rw [if_neg (not_not_intro hc)]
      cases av with
      | none =>
        cases mv with
        | none =>
          dsimp only
          constructor
          · intro hh; exact absurd hh (except_map_some_ne_ok_none _)
          · rintro (hbad | ⟨a, b, ha, hb, hcall⟩)
            · exact absurd hc hbad
            · cases ha
        | some b =>
          dsimp only
          constructor
          · intro hh; exact absurd hh (except_map_some_ne_ok_none _)
          · rintro (hbad | ⟨a2, b2, ha2, hb2, hcall2⟩)
            · exact absurd hc hbad
            · cases ha2
      | some a =>
        cases mv with
        | none =>
          dsimp only
          constructor
          · intro hh; exact absurd hh (except_map_some_ne_ok_none _)
          · rintro (hbad | ⟨a2, b2, ha2, hb2, hcall2⟩)
            · exact absurd hc hbad
            · cases hb2
        | some b =>
          dsimp only
          by_cases hm : env.call [p, "--max-version=" ++ b, nm] = 0
          · rw [if_neg (not_not_intro hm)]
            constructor
            · intro hh; exact absurd hh (except_map_some_ne_ok_none _)
            · rintro (hbad | ⟨a2, b2, ha2, hb2, hcall2⟩)
              · exact absurd hc hbad
              · cases ha2; cases hb2; exact absurd hm hcall2
          · rw [if_pos hm]
            exact ⟨fun _ => Or.inr ⟨a, b, rfl, rfl, hm⟩, fun _ => rfl⟩
    · rw [if_pos hc]
      exact ⟨fun _ => Or.inl hc, fun _ => rfl⟩

/-- C5 witness: both version checks are consulted when an at-least and a max
version are given, and a failing max check yields not-found. -/
theorem c5_witness :
    pkg_config envPkgAtLeast "x" (some "1.0") none (some "2.0") = .ok none :=
  ((c5_pkg_config_existence_tests envPkgAtLeast "x" (some "1.0") none
      (some "2.0")).2.2.2.2.2 "/pc" rfl).mpr
    (Or.inr ⟨"1.0", "2.0", rfl, rfl, by decide⟩)

/-- C4 counterexample: at the Homebrew tier with no `.pc` file, the synthetic
result carries only the `variables` mapping — the five flag-list keys are
absent, not present-and-empty. -/
theorem c4_counterexample :
    find_library 10 envBrewOnly "somelib" =
      .ok (some ⟨none, none, none, none, none,
        [("prefix", "/usr/local"), ("exec_prefix", "/usr/local"),
         ("libdir", "/usr/local/lib"), ("includedir", "/usr/local/include")]⟩)
    ∧ (⟨none, none, none, none, none,
        [("prefix", "/usr/local"), ("exec_prefix", "/usr/local"),
         ("libdir", "/usr/local/lib"),
         ("includedir", "/usr/local/include")]⟩ : FlagSet).library_dirs
      ≠ some [] :=
  ⟨rfl, by simp⟩

/-- C4 (amended): when pkg-config reports not-found, brew reports a non-empty
prefix, and `prefix/lib/pkgconfig/name.pc` is absent, `find_library` returns
a synthetic dictionary holding exactly the four `variables` entries `prefix`,
`exec_prefix`, `libdir` and `includedir`, with no flag-list keys at all. -/
theorem c4_brew_synthetic_flagset :
    ∀ (fuel : Nat) (env : Env) (nm bp : String),
    pkg_config env nm none none none = .ok none →
    brewPrefix env nm = some bp →
    bp ≠ "" →
    env.fileExists (bp ++ "/lib/pkgconfig/" ++ nm ++ ".pc") = false →
    find_library fuel env nm =
      .ok (some ⟨none, none, none, none, none,
        [("prefix", bp), ("exec_prefix", bp),
         ("libdir", bp ++ "/lib"), ("includedir", bp ++ "/include")]⟩) := by
  intro fuel env nm bp h1 h2 h3 h4
  unfold find_library
  simp only [Bind.bind, Except.bind, h1]
  rw [h2]
  dsimp only
  rw [if_pos h3]
  have hpc : read_pc_as_pkg_config fuel env
      (bp ++ "/lib/pkgconfig/" ++ nm ++ ".pc") = .ok none := by
    unfold read_pc_as_pkg_config pc_read
    rw [h4]
    rfl
  simp [Bind.bind, Except.bind, hpc]

/-- C4 witness: the amended theorem applied to the Homebrew-only host. -/
theorem c4_witness :
    find_library 10 envBrewOnly "somelib" =
      .ok (some ⟨none, none, none, none, none,
        [("prefix", "/usr/local"), ("exec_prefix", "/usr/local"),
         ("libdir", "/usr/local/lib"), ("includedir", "/usr/local/include")]⟩) :=
  c4_brew_synthetic_flagset 10 envBrewOnly "somelib" "/usr/local" rfl rfl
    (by decide) rfl

/-- C1 counterexample: the bindings table is keyed by the bound name alone
and both the stored `name` attribute and the returned label use the builder's
own package id, not the `package` argument: binding `(q, n)` in a builder for
`p0` returns `//external:p0/n` (the claim expects `//external:q/n`), stores
`name = p0/n` (the claim expects `q/n`), and a second bind of `n` from a
different package creates no second record. -/
theorem c1_counterexample :
    (bind ⟨"p0", none, [], [], [], [], [], []⟩ "q" "n").2 = "//external:p0/n"
    ∧ "//external:p0/n" ≠ "//external:q/n"
    ∧ ((bindRule "p0" "q" "n").kwargs.lookup "name") = some (.str "p0/n")
    ∧ "p0/n" ≠ "q/n"
    ∧ (bind (bind ⟨"p0", none, [], [], [], [], [], []⟩ "q1" "n").1 "q2"
        "n").1.bindings.length = 1 :=
  ⟨rfl, by decide, rfl, by decide, rfl⟩

/-- C1 (amended): a binding record is created at most once per bound name:
the first `bind(package, name)` for a name stores one `bind` RuleNode with
`name = builderPackage/name` and `actual = package:name`; any later call with
the same name — whatever its `package` argument — leaves the table unchanged;
and every call returns `//external:builderPackage/name`. -/
theorem c1_bind_keyed_by_name :
    ∀ (h : BGH) (pkg pkg2 nm : String),
    (bind h pkg nm).2 = "//external:" ++ h.package ++ "/" ++ nm
    ∧ (h.bindings.lookup nm = none →
        (bind h pkg nm).1.bindings =
          h.bindings ++ [(nm, bindRule h.package pkg nm)])
    ∧ (∀ r, h.bindings.lookup nm = some r → (bind h pkg nm).1 = h)
    ∧ (bind (bind h pkg nm).1 pkg2 nm).1 = (bind h pkg nm).1 := by
  intro h pkg pkg2 nm
  refine ⟨rfl, ?_, ?_, ?_⟩
  · intro hl; simp [bind, hl]
  · intro r hl; simp [bind, hl]
  · cases hl : h.bindings.lookup nm with
    | some r =>
      have e1 : (bind h pkg nm).1 = h := by simp [bind, hl]
      rw [e1]
      simp [bind, hl]
    | none =>
      have e1 : (bind h pkg nm).1 =
          { h with bindings := h.bindings ++ [(nm, bindRule h.package pkg nm)] } := by
        simp [bind, hl]
      rw [e1]
      have hl2 : ((h.bindings ++ [(nm, bindRule h.package pkg nm)]).lookup nm)
          = some (bindRule h.package pkg nm) :=
        lookup_append_singleton h.bindings nm _ hl
      simp [bind, hl2]

/-- C1 witness: the amended theorem applied to a fresh builder for `p`. -/
theorem c1_witness :
    (bind ⟨"p", none, [], [], [], [], [], []⟩ "q" "n").1.bindings =
      [("n", bindRule "p" "q" "n")]
    ∧ (bind (bind ⟨"p", none, [], [], [], [], [], []⟩ "q" "n").1 "r" "n").1 =
      (bind ⟨"p", none, [], [], [], [], [], []⟩ "q" "n").1 :=
  ⟨(c1_bind_keyed_by_name ⟨"p", none, [], [], [], [], [], []⟩ "q" "r" "n").2.1 rfl,
   (c1_bind_keyed_by_name ⟨"p", none, [], [], [], [], [], []⟩ "q" "r" "n").2.2.2⟩

theorem mergeEntry_fold (p : List (String × String))
    (acc : List (String × String) × String) :
    p.foldl mergeEntry acc =
      (acc.1 ++ p.filter (fun e => e.1 ≠ "WORKSPACE"),
       acc.2 ++ strConcat ((p.filter (fun e => e.1 = "WORKSPACE")).map
         (fun e => e.2 ++ "\n"))) := by
  induction p generalizing acc with
  | nil =>
    obtain ⟨a1, a2⟩ := acc
    simp [strConcat]
  | cons e p ih =>
    obtain ⟨n, c⟩ := e
    simp only [List.foldl_cons, List.filter_cons]
    by_cases hn : n = "WORKSPACE"
    · subst hn
      rw [ih]
      simp [mergeEntry, strConcat, strAppend_assoc]
    · rw [ih]
      simp [mergeEntry, hn]

theorem strConcat_append (a b : List String) :
    strConcat (a ++ b) = strConcat a ++ strConcat b := by
  induction a with
  | nil => simp [strConcat, strAppend_empty_left]
  | cons x a ih =>
    simp only [List.cons_append, strConcat, List.foldr_cons] at ih ⊢
    rw [ih, strAppend_assoc]

/-- C9 counterexample: merging appends a newline after every `WORKSPACE`
fragment, so the output fragment for inputs `a` and `b` is `"a\nb\n"`, not the
plain concatenation `"ab"`. -/
theorem c9_counterexample :
    merge_package [[("WORKSPACE", "a")], [("WORKSPACE", "b")]] =
      [("WORKSPACE", "a\nb\n")]
    ∧ ("a\nb\n" : String) ≠ "a" ++ "b" :=
  ⟨rfl, by decide⟩

/-- C9 (amended): the merged archive consists of every input's
non-`WORKSPACE` entries in listed order, followed by a single `WORKSPACE`
entry concatenating every input's `WORKSPACE` fragments in listed order with
a newline appended after each; in particular for two single-fragment archives
the output fragment is `fragment1 ++ "\n" ++ fragment2 ++ "\n"`. -/
theorem c9_merge_concatenates_workspace :
    (∀ packages, merge_package packages =
      (packages.map (fun p => p.filter (fun e => e.1 ≠ "WORKSPACE"))).flatten
      ++ [("WORKSPACE",
           strConcat ((packages.flatten.filter (fun e => e.1 = "WORKSPACE")).map
             (fun e => e.2 ++ "\n")))])
    ∧ (∀ f1 f2, merge_package [[("WORKSPACE", f1)], [("WORKSPACE", f2)]] =
        [("WORKSPACE", ((f1 ++ "\n") ++ f2) ++ "\n")]) := by
  constructor
  · intro packages
    unfold merge_package
    have key : ∀ (ps : List (List (String × String)))
        (acc : List (String × String) × String),
        ps.foldl (fun acc p => p.foldl mergeEntry acc) acc =
          (acc.1 ++ (ps.map (fun p => p.filter (fun e => e.1 ≠ "WORKSPACE"))).flatten,
           acc.2 ++ strConcat ((ps.flatten.filter (fun e => e.1 = "WORKSPACE")).map
             (fun e => e.2 ++ "\n"))) := by
      intro ps
      induction ps with
      | nil =>
        intro acc
        obtain ⟨a1, a2⟩ := acc
        simp [strConcat]
      | cons p ps ih =>
        intro acc
        simp only [List.foldl_cons, List.map_cons, List.flatten]
        rw [mergeEntry_fold, ih]
        simp [List.filter_append, List.append_assoc, strConcat_append,
          strAppend_assoc]
    rw [key]
    simp [strAppend_empty_left]
  · intro f1 f2
    rfl

theorem serializeAttrs_eq (kwargs : List (String × PyVal)) (newpre : String) :
    serializeAttrs kwargs newpre = (kwargs.mapM (pieceRender newpre)).map strConcat := by
  induction kwargs with
  | nil =>
    simp only [serializeAttrs]
    rfl
  | cons kv rest ih =>
    obtain ⟨k, v⟩ := kv
    simp only [serializeAttrs, List.mapM_cons, pieceRender]
    cases hs : serializeObj v "    " with
    | error e => simp [hs, Bind.bind, Except.bind, Except.map]
    | ok so =>
      cases so with
      | none => simp [hs, Bind.bind, Except.bind, Except.map]
      | some t =>
        simp only [hs, Bind.bind, Except.bind]
        rw [ih]
        cases hm : rest.mapM (pieceRender newpre) with
        | error e => simp [hm, Except.map]
        | ok ps => simp [hm, Except.map, strConcat, pure, Except.pure]

/-- C2 counterexample: the named attributes of a serialized RuleNode appear
in the `**kwargs` dictionary's CPython 2 hash-table order, not in insertion
order.  The program's own `bind` rule inserts `name` then `actual`, but
`name` hashes to slot 5 and `actual` to slot 4 of the eight-slot table, so
the program serializes `actual` first — unlike the insertion-order rendering
the claim requires. -/
theorem c2_counterexample :
    py2DictEntries (reorderValKw
        [("name", PyVal.str "p/n"), ("actual", PyVal.str "q:n")]) =
      [("actual", PyVal.str "q:n"), ("name", PyVal.str "p/n")]
    ∧ serializeRuleDict "bind" none
        [("name", PyVal.str "p/n"), ("actual", PyVal.str "q:n")] "" =
      .ok "bind(\n    actual = \"q:n\",\n    name = \"p/n\",\n)\n"
    ∧ serializeRule "bind" none
        [("name", PyVal.str "p/n"), ("actual", PyVal.str "q:n")] "" =
      .ok "bind(\n    name = \"p/n\",\n    actual = \"q:n\",\n)\n"
    ∧ ("bind(\n    actual = \"q:n\",\n    name = \"p/n\",\n)\n" : String)
      ≠ "bind(\n    name = \"p/n\",\n    actual = \"q:n\",\n)\n" :=
  ⟨rfl, rfl, rfl, by decide⟩

/-- C2 (amended): building and serializing are functions of the operation
sequence — CPython 2's default string hashing is deterministic — so two
graphs built by the same sequence have byte-identical build-file and
workspace-fragment texts; and a successfully serialized RuleNode is exactly
its head followed by its named attributes rendered in the `**kwargs`
dictionary's hash-table iteration order (a deterministic function of the
attribute names), not in insertion order: the `bind` rule's attributes,
inserted as `(name, actual)`, serialize as `(actual, name)`. -/
theorem c2_serialization_hash_ordered :
    (∀ (h0 : BGH) (ops1 ops2 : List BOp) (g1 g2 : BGH),
        ops1 = ops2 → runOps h0 ops1 = .ok g1 → runOps h0 ops2 = .ok g2 →
        buildFile g1 = buildFile g2 ∧ workspaceFile g1 = workspaceFile g2)
    ∧ (∀ nm first kwargs pre s,
        serializeRuleDict nm first kwargs pre = .ok s →
        ∃ pieces,
          (py2DictEntries (reorderValKw kwargs)).mapM
            (pieceRender (pre ++ "    ")) = .ok pieces ∧
          s = ruleHead nm
              (match first with
               | some f => some (reorderVal f)
               | none => none) pre
            ++ strConcat pieces ++ pre ++ ")\n")
    ∧ serializeRuleDict "bind" none
        [("name", PyVal.str "p/n"), ("actual", PyVal.str "q:n")] "" =
      .ok "bind(\n    actual = \"q:n\",\n    name = \"p/n\",\n)\n" := by
  refine ⟨?_, ?_, rfl⟩
  · intro h0 ops1 ops2 g1 g2 hops h1 h2
    subst hops
    rw [h1] at h2
    cases h2
    exact ⟨rfl, rfl⟩
  · intro nm first kwargs pre s hs
    unfold serializeRuleDict at hs
    rw [serializeRule, serializeAttrs_eq] at hs
    cases hm : (py2DictEntries (reorderValKw kwargs)).mapM
        (pieceRender (pre ++ "    ")) with
    | error e =>
      rw [hm] at hs
      simp [Except.map] at hs
    | ok ps =>
      rw [hm] at hs
      simp only [Except.map] at hs
      cases hs
      exact ⟨ps, rfl, rfl⟩

/-- C2 witness: the determinism part applied to a one-rule build, and the
ordering part applied to the bind rule (whose attributes come back in hash
order). -/
theorem c2_witness :
    (buildFile ⟨"p", none, [⟨"cc_library", none, [("name", PyVal.str "x")]⟩],
        [], [], [], [], []⟩ =
      buildFile ⟨"p", none, [⟨"cc_library", none, [("name", PyVal.str "x")]⟩],
        [], [], [], [], []⟩
     ∧ workspaceFile ⟨"p", none, [⟨"cc_library", none, [("name", PyVal.str "x")]⟩],
        [], [], [], [], []⟩ =
      workspaceFile ⟨"p", none, [⟨"cc_library", none, [("name", PyVal.str "x")]⟩],
        [], [], [], [], []⟩)
    ∧ ∃ pieces,
        (py2DictEntries (reorderValKw
            [("name", PyVal.str "p/n"), ("actual", PyVal.str "q:n")])).mapM
          (pieceRender "    ") = .ok pieces ∧
        "bind(\n    actual = \"q:n\",\n    name = \"p/n\",\n)\n" =
          ruleHead "bind" none "" ++ strConcat pieces ++ "" ++ ")\n" :=
  ⟨c2_serialization_hash_ordered.1
      ⟨"p", none, [], [], [], [], [], []⟩
      [BOp.addRule "cc_library" [("name", PyVal.str "x")]]
      [BOp.addRule "cc_library" [("name", PyVal.str "x")]]
      ⟨"p", none, [⟨"cc_library", none, [("name", PyVal.str "x")]⟩],
        [], [], [], [], []⟩
      ⟨"p", none, [⟨"cc_library", none, [("name", PyVal.str "x")]⟩],
        [], [], [], [], []⟩
      rfl rfl rfl,
   c2_serialization_hash_ordered.2.1 "bind" none
     [("name", PyVal.str "p/n"), ("actual", PyVal.str "q:n")] ""
     "bind(\n    actual = \"q:n\",\n    name = \"p/n\",\n)\n" rfl⟩

end BazelInit
